import Mathlib

/-!
Shallow embedding of the EuroPython Matrix authentication provider
(`epcon_auth_provider.py`) and proofs of its specified properties.

The embedding models:
* the fixed room topology (`DEFAULT_ROOMS`) and the four join groups;
* the pure room-policy function `get_rooms_for_user`;
* the identity normalizer (`strip_accents`, `get_local_part`);
* the login orchestration `check_3pid_auth` and the membership
  reconciliation `_apply_user_policies`, with the fallible collaborators
  (alias lookup, membership fetch, invite, join, account resolution)
  represented as an explicit environment, and the issued side effects
  recorded as a trace.
-/

/-- The homeserver domain, `HOMESERVER_NAME = "europython.eu"`. -/
def HOMESERVER_NAME : String := "europython.eu"

/-- The fixed bootstrap room topology `DEFAULT_ROOMS`:
pairs of (room alias, public flag). -/
def DEFAULT_ROOMS : List (String × Bool) :=
  [ ("#info-desk:" ++ HOMESERVER_NAME, true),
    ("#hallway:" ++ HOMESERVER_NAME, false),
    ("#announcements:" ++ HOMESERVER_NAME, true),
    ("#staff:" ++ HOMESERVER_NAME, false),
    ("#speakers:" ++ HOMESERVER_NAME, false),
    ("#coc:" ++ HOMESERVER_NAME, false),
    ("#track1:" ++ HOMESERVER_NAME, false),
    ("#track2:" ++ HOMESERVER_NAME, false),
    ("#track3:" ++ HOMESERVER_NAME, false),
    ("#track4:" ++ HOMESERVER_NAME, false),
    ("#sprints:" ++ HOMESERVER_NAME, true) ]

/-- Room group `JOIN_DEFAULT`. -/
def JOIN_DEFAULT : List String :=
  ["#info-desk:" ++ HOMESERVER_NAME, "#sprints:" ++ HOMESERVER_NAME,
   "#coc:" ++ HOMESERVER_NAME]

/-- Room group `JOIN_CONFERENCE`. -/
def JOIN_CONFERENCE : List String :=
  ["#track1:" ++ HOMESERVER_NAME, "#track2:" ++ HOMESERVER_NAME,
   "#track3:" ++ HOMESERVER_NAME, "#track4:" ++ HOMESERVER_NAME,
   "#hallway:" ++ HOMESERVER_NAME]

/-- Room group `JOIN_SPEAKER`. -/
def JOIN_SPEAKER : List String := ["#speakers:" ++ HOMESERVER_NAME]

/-- Room group `JOIN_STAFF`. -/
def JOIN_STAFF : List String := ["#staff:" ++ HOMESERVER_NAME]

/-- A ticket record from the epcon profile: only the `fare_code` field is
consulted by the provider. -/
structure Ticket where
  fare_code : String
deriving DecidableEq, Repr

/-- The entitlement profile returned by the epcon endpoint
(`epcon_data`). A missing `tickets` field and an empty `tickets` list are
both falsy in the source (`epcon_data.get("tickets", None)` followed by
`if not tickets`), so both are modelled as the empty list. -/
structure EpconData where
  email : String
  first_name : String
  last_name : String
  username : String
  is_staff : Bool
  is_speaker : Bool
  tickets : List Ticket
deriving DecidableEq, Repr

/-- Sprint-tier fare codes (`["TRPC", "TRPP"]` in the source). -/
def sprintCodes : List String := ["TRPC", "TRPP"]

/-- Combined-tier fare codes (`["TRCC", "TRCP", "TRSC", "TRSP"]`). -/
def combinedCodes : List String := ["TRCC", "TRCP", "TRSC", "TRSP"]

/-- One iteration of the ticket loop of `get_rooms_for_user`: the sprint
check and the combined check are two separate `if`s in the source, so a
fare code matching both would extend twice (no fare code does). -/
def addTicketRooms (acc : List String) (t : Ticket) : List String :=
  let acc1 := if t.fare_code ∈ sprintCodes then acc ++ JOIN_DEFAULT else acc
  if t.fare_code ∈ combinedCodes then acc1 ++ JOIN_DEFAULT ++ JOIN_CONFERENCE
  else acc1

/-- `get_rooms_for_user(epcon_data)`: staff get the concatenation of all
four groups (the source returns that list directly); otherwise the
speaker group (if `is_speaker`) and the per-ticket groups are
accumulated and returned as a set (`set(rooms_to_join)`), modelled by
`List.dedup`. -/
def get_rooms_for_user (d : EpconData) : List String :=
  if d.is_staff then JOIN_DEFAULT ++ JOIN_CONFERENCE ++ JOIN_SPEAKER ++ JOIN_STAFF
  else
    (d.tickets.foldl addTicketRooms
      (if d.is_speaker then JOIN_SPEAKER else [])).dedup

/-- Deduplicating a list does not change the corresponding finite set. -/
lemma dedup_toFinset {α : Type} [DecidableEq α] (l : List α) :
    l.dedup.toFinset = l.toFinset := by
  ext x; simp [List.mem_dedup]

/-- Set-level value of one ticket-loop iteration. -/
lemma addTicketRooms_toFinset (acc : List String) (t : Ticket) :
    (addTicketRooms acc t).toFinset =
      acc.toFinset
        ∪ (if t.fare_code ∈ sprintCodes then JOIN_DEFAULT.toFinset else ∅)
        ∪ (if t.fare_code ∈ combinedCodes then
            JOIN_DEFAULT.toFinset ∪ JOIN_CONFERENCE.toFinset else ∅) := by
  unfold addTicketRooms
  by_cases hs : t.fare_code ∈ sprintCodes <;>
    by_cases hc : t.fare_code ∈ combinedCodes <;>
      simp [hs, hc, List.toFinset_append, Finset.union_assoc]

/-- Set-level value of the whole ticket loop, for any accumulator. -/
lemma foldl_addTicketRooms_toFinset (ts : List Ticket) (acc : List String) :
    (ts.foldl addTicketRooms acc).toFinset =
      acc.toFinset
        ∪ (if ∃ t ∈ ts, t.fare_code ∈ sprintCodes then JOIN_DEFAULT.toFinset else ∅)
        ∪ (if ∃ t ∈ ts, t.fare_code ∈ combinedCodes then
            JOIN_DEFAULT.toFinset ∪ JOIN_CONFERENCE.toFinset else ∅) := by
  induction ts generalizing acc with
  | nil => simp
  | cons t ts ih =>
    rw [List.foldl_cons, ih, addTicketRooms_toFinset]
    ext x
    by_cases hs : t.fare_code ∈ sprintCodes <;>
      by_cases hc : t.fare_code ∈ combinedCodes <;>
        by_cases hs' : ∃ u ∈ ts, u.fare_code ∈ sprintCodes <;>
          by_cases hc' : ∃ u ∈ ts, u.fare_code ∈ combinedCodes <;>
            simp [hs, hc, hs', hc'] <;> tauto

/-- Set-level characterization of `get_rooms_for_user`. -/
lemma get_rooms_for_user_toFinset (d : EpconData) :
    (get_rooms_for_user d).toFinset =
      if d.is_staff then
        JOIN_DEFAULT.toFinset ∪ JOIN_CONFERENCE.toFinset
          ∪ JOIN_SPEAKER.toFinset ∪ JOIN_STAFF.toFinset
      else
        (if d.is_speaker then JOIN_SPEAKER.toFinset else ∅)
          ∪ (if ∃ t ∈ d.tickets, t.fare_code ∈ sprintCodes then
              JOIN_DEFAULT.toFinset else ∅)
          ∪ (if ∃ t ∈ d.tickets, t.fare_code ∈ combinedCodes then
              JOIN_DEFAULT.toFinset ∪ JOIN_CONFERENCE.toFinset else ∅) := by
  unfold get_rooms_for_user
  by_cases hst : d.is_staff
  · simp [hst, List.toFinset_append, Finset.union_assoc]
  · rw [if_neg hst, if_neg hst, dedup_toFinset,
      foldl_addTicketRooms_toFinset]
    by_cases hsp : d.is_speaker <;> simp [hsp]

/-- Claim C2: for every profile with `is_staff = true`, the room policy
returns, as a set, exactly the union of the four fixed room groups,
regardless of the tickets and of `is_speaker`. -/
theorem staff_gets_all_four_groups (d : EpconData) (h : d.is_staff = true) :
    (get_rooms_for_user d).toFinset =
      JOIN_DEFAULT.toFinset ∪ JOIN_CONFERENCE.toFinset
        ∪ JOIN_SPEAKER.toFinset ∪ JOIN_STAFF.toFinset := by
  rw [get_rooms_for_user_toFinset, if_pos h]

/-- Witness for C2: a staff profile with a speaker flag and an
unrecognized ticket still maps to the full four-group union. -/
theorem staff_gets_all_four_groups_witness :
    (get_rooms_for_user
        ⟨"a@b.c", "Ann", "Lee", "al", true, true, [⟨"XYZ"⟩]⟩).toFinset =
      JOIN_DEFAULT.toFinset ∪ JOIN_CONFERENCE.toFinset
        ∪ JOIN_SPEAKER.toFinset ∪ JOIN_STAFF.toFinset :=
  staff_gets_all_four_groups ⟨"a@b.c", "Ann", "Lee", "al", true, true, [⟨"XYZ"⟩]⟩ rfl

/-- Claim C6: the room policy is deterministic and order-independent:
permuting the tickets sequence leaves the resulting set unchanged. -/
theorem compute_rooms_order_independent (d : EpconData) (ts : List Ticket)
    (h : d.tickets.Perm ts) :
    (get_rooms_for_user d).toFinset =
      (get_rooms_for_user { d with tickets := ts }).toFinset := by
  have hmem : ∀ t : Ticket, t ∈ d.tickets ↔ t ∈ ts := fun t => h.mem_iff
  rw [get_rooms_for_user_toFinset, get_rooms_for_user_toFinset]
  simp [hmem]

/-- Witness for C6: swapping two concrete tickets preserves the room
set. -/
theorem compute_rooms_order_independent_witness :
    (⟨"a@b.c", "Ann", "Lee", "al", false, false,
        [⟨"TRPC"⟩, ⟨"TRCC"⟩]⟩ : EpconData).tickets.Perm
        [⟨"TRCC"⟩, ⟨"TRPC"⟩] ∧
    (get_rooms_for_user
        ⟨"a@b.c", "Ann", "Lee", "al", false, false,
          [⟨"TRPC"⟩, ⟨"TRCC"⟩]⟩).toFinset =
      (get_rooms_for_user
        ⟨"a@b.c", "Ann", "Lee", "al", false, false,
          [⟨"TRCC"⟩, ⟨"TRPC"⟩]⟩).toFinset :=
  ⟨by decide,
   compute_rooms_order_independent
     ⟨"a@b.c", "Ann", "Lee", "al", false, false, [⟨"TRPC"⟩, ⟨"TRCC"⟩]⟩
     [⟨"TRCC"⟩, ⟨"TRPC"⟩] (by decide)⟩

/-- A profile holding both a sprint-tier and a combined-tier ticket, with
neither staff nor speaker flag. -/
def dSprintAndCombined : EpconData :=
  ⟨"a@b.c", "Ann", "Lee", "al", false, false, [⟨"TRPC"⟩, ⟨"TRCC"⟩]⟩

/-- Counterexample to C7 as stated: this profile has a sprint-tier fare
code among its tickets and no staff/speaker flags, yet its computed room
set contains a Conference-group room (the combined-tier ticket adds it). -/
theorem sprint_ticket_rooms_counterexample :
    dSprintAndCombined.is_staff = false ∧
    dSprintAndCombined.is_speaker = false ∧
    (∃ t ∈ dSprintAndCombined.tickets, t.fare_code ∈ sprintCodes) ∧
    ("#track1:" ++ HOMESERVER_NAME) ∈ JOIN_CONFERENCE ∧
    ("#track1:" ++ HOMESERVER_NAME) ∈ get_rooms_for_user dSprintAndCombined := by
  refine ⟨rfl, rfl, ?_, ?_, ?_⟩ <;> decide

/-- Claim C7 (amended): for a profile with a sprint-tier fare code among
its tickets, no combined-tier fare code, and neither staff nor speaker
flag, the computed set contains every Default-group room and no
Conference-, Speaker- or Staff-group room. -/
theorem sprint_ticket_rooms (d : EpconData)
    (hstaff : d.is_staff = false) (hspeak : d.is_speaker = false)
    (hs : ∃ t ∈ d.tickets, t.fare_code ∈ sprintCodes)
    (hc : ∀ t ∈ d.tickets, t.fare_code ∉ combinedCodes) :
    (∀ r ∈ JOIN_DEFAULT, r ∈ get_rooms_for_user d) ∧
    (∀ r ∈ JOIN_CONFERENCE ++ JOIN_SPEAKER ++ JOIN_STAFF,
      r ∉ get_rooms_for_user d) := by
  have hnc : ¬ ∃ t ∈ d.tickets, t.fare_code ∈ combinedCodes := by
    rintro ⟨t, ht, hf⟩; exact hc t ht hf
  have key : (get_rooms_for_user d).toFinset = JOIN_DEFAULT.toFinset := by
    rw [get_rooms_for_user_toFinset, if_neg (by simp [hstaff]),
      if_pos hs, if_neg hnc]
    simp [hspeak]
  have hiff : ∀ r : String, r ∈ get_rooms_for_user d ↔ r ∈ JOIN_DEFAULT := by
    intro r
    rw [← List.mem_toFinset, key, List.mem_toFinset]
  constructor
  · intro r hr; exact (hiff r).mpr hr
  · intro r hr hmem
    have hd : r ∈ JOIN_DEFAULT := (hiff r).mp hmem
    have hdisj : ∀ s ∈ JOIN_CONFERENCE ++ JOIN_SPEAKER ++ JOIN_STAFF,
        s ∉ JOIN_DEFAULT := by decide
    exact hdisj r hr hd

/-- Witness for C7 (amended): a profile with a single sprint ticket gets
the Default group and nothing from the other three groups. -/
theorem sprint_ticket_rooms_witness :
    (∀ r ∈ JOIN_DEFAULT,
      r ∈ get_rooms_for_user ⟨"a@b.c", "Ann", "Lee", "al", false, false, [⟨"TRPP"⟩]⟩) ∧
    (∀ r ∈ JOIN_CONFERENCE ++ JOIN_SPEAKER ++ JOIN_STAFF,
      r ∉ get_rooms_for_user ⟨"a@b.c", "Ann", "Lee", "al", false, false, [⟨"TRPP"⟩]⟩) :=
  sprint_ticket_rooms
    ⟨"a@b.c", "Ann", "Lee", "al", false, false, [⟨"TRPP"⟩]⟩
    rfl rfl (by decide) (by decide)

/-- Claim C8: inserting a ticket whose fare code is outside the six
recognized codes anywhere in the tickets list leaves the computed room
set unchanged (and, read right to left, removing such a ticket does
too); the computation is total, so no input fails. -/
theorem unknown_fare_code_ignored (d : EpconData) (t : Ticket)
    (h : t.fare_code ∉ sprintCodes ++ combinedCodes)
    (l1 l2 : List Ticket) (hsplit : d.tickets = l1 ++ l2) :
    (get_rooms_for_user { d with tickets := l1 ++ t :: l2 }).toFinset =
      (get_rooms_for_user d).toFinset := by
  rw [List.mem_append] at h
  push_neg at h
  obtain ⟨h1, h2⟩ := h
  have e : ∀ p : Ticket → Prop, ¬ p t →
      ((∃ u ∈ l1 ++ t :: l2, p u) ↔ (∃ u ∈ l1 ++ l2, p u)) := by
    intro p hp
    simp only [List.mem_append, List.mem_cons]
    constructor
    · rintro ⟨u, hu | rfl | hu, hpu⟩
      · exact ⟨u, Or.inl hu, hpu⟩
      · exact absurd hpu hp
      · exact ⟨u, Or.inr hu, hpu⟩
    · rintro ⟨u, hu | hu, hpu⟩
      · exact ⟨u, Or.inl hu, hpu⟩
      · exact ⟨u, Or.inr (Or.inr hu), hpu⟩
  have e1 : (∃ u ∈ l1 ++ t :: l2, u.fare_code ∈ sprintCodes) ↔
      (∃ u ∈ l1 ++ l2, u.fare_code ∈ sprintCodes) :=
    e (fun u => u.fare_code ∈ sprintCodes) h1
  have e2 : (∃ u ∈ l1 ++ t :: l2, u.fare_code ∈ combinedCodes) ↔
      (∃ u ∈ l1 ++ l2, u.fare_code ∈ combinedCodes) :=
    e (fun u => u.fare_code ∈ combinedCodes) h2
  rw [get_rooms_for_user_toFinset, get_rooms_for_user_toFinset]
  dsimp only
  rw [hsplit]
  simp only [e1, e2]

/-- Witness for C8: inserting a ticket with unrecognized fare code
`"LIVE"` between two recognized tickets leaves the room set unchanged. -/
theorem unknown_fare_code_ignored_witness :
    (⟨"LIVE"⟩ : Ticket).fare_code ∉ sprintCodes ++ combinedCodes ∧
    (⟨"a@b.c", "Ann", "Lee", "al", false, true,
        [⟨"TRPC"⟩, ⟨"TRCC"⟩]⟩ : EpconData).tickets = [⟨"TRPC"⟩] ++ [⟨"TRCC"⟩] ∧
    (get_rooms_for_user
        ⟨"a@b.c", "Ann", "Lee", "al", false, true,
          [⟨"TRPC"⟩] ++ ⟨"LIVE"⟩ :: [⟨"TRCC"⟩]⟩).toFinset =
      (get_rooms_for_user
        ⟨"a@b.c", "Ann", "Lee", "al", false, true,
          [⟨"TRPC"⟩, ⟨"TRCC"⟩]⟩).toFinset :=
  ⟨by decide, rfl,
   unknown_fare_code_ignored
     ⟨"a@b.c", "Ann", "Lee", "al", false, true, [⟨"TRPC"⟩, ⟨"TRCC"⟩]⟩
     ⟨"LIVE"⟩ (by decide) [⟨"TRPC"⟩] [⟨"TRCC"⟩] rfl⟩

/-- Claim C10: every room alias the policy can ever target is the alias
of one of the rooms in the fixed `DEFAULT_ROOMS` bootstrap list. -/
theorem targets_covered_by_bootstrap (d : EpconData) (r : String)
    (h : r ∈ get_rooms_for_user d) :
    r ∈ DEFAULT_ROOMS.map Prod.fst := by
  have h4 : r ∈ JOIN_DEFAULT ∨ r ∈ JOIN_CONFERENCE ∨ r ∈ JOIN_SPEAKER
      ∨ r ∈ JOIN_STAFF := by
    have hm := List.mem_toFinset.mpr h
    rw [get_rooms_for_user_toFinset] at hm
    split_ifs at hm <;> simp [List.mem_toFinset] at hm <;> tauto
  have hcov : ∀ s ∈ JOIN_DEFAULT ++ JOIN_CONFERENCE ++ JOIN_SPEAKER ++ JOIN_STAFF,
      s ∈ DEFAULT_ROOMS.map Prod.fst := by decide
  apply hcov
  simp only [List.mem_append]
  tauto

/-- Witness for C10: the speakers room targeted for a speaker profile is
in the bootstrap topology. -/
theorem targets_covered_by_bootstrap_witness :
    ("#speakers:" ++ HOMESERVER_NAME) ∈
        get_rooms_for_user ⟨"a@b.c", "Ann", "Lee", "al", false, true, []⟩ ∧
    ("#speakers:" ++ HOMESERVER_NAME) ∈ DEFAULT_ROOMS.map Prod.fst :=
  ⟨by decide,
   targets_covered_by_bootstrap
     ⟨"a@b.c", "Ann", "Lee", "al", false, true, []⟩
     ("#speakers:" ++ HOMESERVER_NAME) (by decide)⟩

/-- Matrix membership actions (`synapse.api.constants.Membership`). -/
inductive MembershipAction
  | invite
  | join
  | knock
  | leave
  | ban
deriving DecidableEq, Repr

/-- One call to `room_member_handler.update_membership`: the requesting
account, the target account, the room id and the action. -/
structure MembershipUpdate where
  requester : String
  target : String
  room_id : String
  action : MembershipAction
deriving DecidableEq, Repr

/-- Per-room outcome of one iteration of the `_apply_user_policies`
loop: every failure is caught by the per-room `except` and the loop
continues with the next alias. -/
inductive RoomResult
  | applied
  | alreadyMember
  | failedResolve
  | failedInvite
  | failedJoin
deriving DecidableEq, Repr

/-- Environment of room collaborators consumed by the provider:
whether the admin account exists (checked by `create_epcon_rooms`),
alias resolution (`lookup_room_alias`, `none` models a raised error),
the membership fetch (`store.get_rooms_for_user`, `none` models a
raised error), and whether the invite and join calls succeed for a
given room id. -/
structure RoomEnv where
  adminExists : Bool
  aliasToId : String → Option String
  fetchMemberships : String → Option (List String)
  inviteOk : String → Bool
  joinOk : String → Bool

/-- Outcome of one iteration of the room loop: the recorded result, the
membership updates issued (calls made, successful or not), and the room
id the user ends up joined to (only when invite and join both
succeeded). -/
structure RoomOutcome where
  result : RoomResult
  updates : List MembershipUpdate
  joinedId : Option String
deriving DecidableEq, Repr

/-- One iteration of the loop of `_apply_user_policies` (lines 179-202):
resolve the alias; skip if the resolved id is in the membership
snapshot fetched at the start of the pass; otherwise invite as the
admin and force-join as the user, each failure caught and recorded. -/
def reconcileRoom (env : RoomEnv) (snapshot : List String)
    (admin user room_alias : String) : RoomOutcome :=
  match env.aliasToId room_alias with
  | none => ⟨RoomResult.failedResolve, [], none⟩
  | some rid =>
    if rid ∈ snapshot then ⟨RoomResult.alreadyMember, [], none⟩
    else if env.inviteOk rid then
      if env.joinOk rid then
        ⟨RoomResult.applied,
          [⟨admin, user, rid, MembershipAction.invite⟩,
           ⟨user, user, rid, MembershipAction.join⟩], some rid⟩
      else
        ⟨RoomResult.failedJoin,
          [⟨admin, user, rid, MembershipAction.invite⟩,
           ⟨user, user, rid, MembershipAction.join⟩], none⟩
    else
      ⟨RoomResult.failedInvite,
        [⟨admin, user, rid, MembershipAction.invite⟩], none⟩

/-- Result of a whole reconciliation pass: per-alias results, all
membership updates issued, and the membership state after the pass
(the snapshot plus every newly joined room id). -/
structure ReconcileOutcome where
  results : List (String × RoomResult)
  updates : List MembershipUpdate
  member1 : List String
deriving DecidableEq, Repr

/-- The room loop of `_apply_user_policies` run over the target rooms
of the profile, against the membership snapshot `member0` fetched once
at the start of the pass (line 176; it is not re-fetched per room). -/
def reconcilePass (env : RoomEnv) (member0 : List String)
    (admin user : String) (d : EpconData) : ReconcileOutcome :=
  let rooms := get_rooms_for_user d
  { results := rooms.map fun a => (a, (reconcileRoom env member0 admin user a).result)
    updates := rooms.flatMap fun a => (reconcileRoom env member0 admin user a).updates
    member1 := member0 ++ rooms.filterMap fun a => (reconcileRoom env member0 admin user a).joinedId }

/-- Side effects visible outside the provider. -/
inductive Effect
  | resolveAccount (user_id : String)
  | createRoom (room_alias : String) (isPublic : Bool)
  | membershipChange (u : MembershipUpdate)
deriving DecidableEq, Repr

/-- `create_epcon_rooms`: skipped entirely when the admin account does
not exist; otherwise one creation attempt per room of `DEFAULT_ROOMS`,
with per-room failures logged and swallowed. -/
def create_epcon_rooms (env : RoomEnv) : List Effect :=
  if env.adminExists then
    DEFAULT_ROOMS.map fun p => Effect.createRoom p.1 p.2
  else []

/-- `_apply_user_policies`: bootstrap when the user is the admin, then
fetch the membership snapshot and run the room loop. A failing
membership fetch raises out of this function (`none`); per-room
failures never do. -/
def apply_user_policies (env : RoomEnv) (admin user : String)
    (d : EpconData) : List Effect × Option ReconcileOutcome :=
  let boot := if user = admin then create_epcon_rooms env else []
  match env.fetchMemberships user with
  | none => (boot, none)
  | some member0 =>
    let out := reconcilePass env member0 admin user d
    (boot ++ out.updates.map Effect.membershipChange, some out)

/-- Environment of the login flow: the epcon credential check
(`auth_with_epcon`; `none` models both bad credentials and an error
response), account resolution (`_get_or_create_userid`; `none` models a
raised provisioning error, which is outside the `try` and so fatal),
the configured admin user, and the room collaborators. -/
structure AuthEnv where
  authEpcon : String → String → Option EpconData
  resolveUser : EpconData → Option String
  admin : String
  roomEnv : RoomEnv

/-- Outcome of `check_3pid_auth`: `nonParticipation` models returning
`None` (wrong medium or failed credentials), `entitlementError` the
raised `SynapseError` with its errcode, `provisioningFailure` an
uncaught error from account resolution, and `authenticated` a returned
user id. -/
inductive AuthOutcome
  | nonParticipation
  | entitlementError (errcode : String)
  | provisioningFailure
  | authenticated (user_id : String)
deriving DecidableEq, Repr

/-- `check_3pid_auth(medium, address, password)` with its effect trace.
Any exception from `_apply_user_policies` is caught (lines 164-167), so
the outcome is `authenticated` as soon as a user id was resolved,
whatever the room operations did. -/
def check_3pid_auth (env : AuthEnv) (medium address password : String) :
    AuthOutcome × List Effect :=
  if medium ≠ "email" then (AuthOutcome.nonParticipation, [])
  else
    match env.authEpcon address password with
    | none => (AuthOutcome.nonParticipation, [])
    | some d =>
      if d.tickets.isEmpty then
        (AuthOutcome.entitlementError "no_tickets_found", [])
      else
        match env.resolveUser d with
        | none => (AuthOutcome.provisioningFailure, [])
        | some uid =>
          let applied := apply_user_policies env.roomEnv env.admin uid d
          (AuthOutcome.authenticated uid, Effect.resolveAccount uid :: applied.1)

/-- Claim C1: once credentials validate, tickets are non-empty and a
user id is resolved, the login returns that user id, whatever the room
environment does (every room operation may fail: the per-room and
outer `except` blocks keep failures away from the caller). -/
theorem login_succeeds_despite_room_failures (env : AuthEnv)
    (address password : String) (d : EpconData) (uid : String)
    (hauth : env.authEpcon address password = some d)
    (ht : d.tickets ≠ [])
    (hres : env.resolveUser d = some uid) :
    (check_3pid_auth env "email" address password).1 =
      AuthOutcome.authenticated uid := by
  cases hdt : d.tickets with
  | nil => exact absurd hdt ht
  | cons t ts => simp [check_3pid_auth, hauth, hres, hdt]

/-- Witness for C1: a concrete environment in which the admin account
is missing, alias resolution always fails, the membership fetch always
raises, and every invite and join fails, yet login succeeds. -/
theorem login_succeeds_despite_room_failures_witness :
    (AuthEnv.mk
        (fun _ _ => some ⟨"a@b.c", "Ann", "Lee", "al", false, false, [⟨"TRPC"⟩]⟩)
        (fun _ => some "@ann.lee.al:europython.eu")
        "@admin:europython.eu"
        ⟨false, fun _ => none, fun _ => none, fun _ => false, fun _ => false⟩).authEpcon
      "a@b.c" "pw" = some ⟨"a@b.c", "Ann", "Lee", "al", false, false, [⟨"TRPC"⟩]⟩ ∧
    (⟨"a@b.c", "Ann", "Lee", "al", false, false, [⟨"TRPC"⟩]⟩ : EpconData).tickets ≠ [] ∧
    (check_3pid_auth
        (AuthEnv.mk
          (fun _ _ => some ⟨"a@b.c", "Ann", "Lee", "al", false, false, [⟨"TRPC"⟩]⟩)
          (fun _ => some "@ann.lee.al:europython.eu")
          "@admin:europython.eu"
          ⟨false, fun _ => none, fun _ => none, fun _ => false, fun _ => false⟩)
        "email" "a@b.c" "pw").1 =
      AuthOutcome.authenticated "@ann.lee.al:europython.eu" :=
  ⟨rfl, by decide,
   login_succeeds_despite_room_failures _ "a@b.c" "pw"
     ⟨"a@b.c", "Ann", "Lee", "al", false, false, [⟨"TRPC"⟩]⟩
     "@ann.lee.al:europython.eu" rfl (by decide) rfl⟩

/-- Claim C3: valid credentials with an empty (or missing) tickets list
raise the distinguishable `no_tickets_found` error, with an empty
effect trace: no account is resolved or provisioned and no room is
touched. -/
theorem no_tickets_raises_error (env : AuthEnv)
    (address password : String) (d : EpconData)
    (hauth : env.authEpcon address password = some d)
    (ht : d.tickets = []) :
    check_3pid_auth env "email" address password =
      (AuthOutcome.entitlementError "no_tickets_found", []) := by
  simp [check_3pid_auth, hauth, ht]

/-- Witness for C3: an environment whose credential check accepts and
returns a ticketless profile. -/
theorem no_tickets_raises_error_witness :
    (AuthEnv.mk
        (fun _ _ => some ⟨"a@b.c", "Ann", "Lee", "al", false, false, []⟩)
        (fun _ => some "@ann.lee.al:europython.eu")
        "@admin:europython.eu"
        ⟨true, fun _ => none, fun _ => some [], fun _ => true, fun _ => true⟩).authEpcon
      "a@b.c" "pw" = some ⟨"a@b.c", "Ann", "Lee", "al", false, false, []⟩ ∧
    check_3pid_auth
        (AuthEnv.mk
          (fun _ _ => some ⟨"a@b.c", "Ann", "Lee", "al", false, false, []⟩)
          (fun _ => some "@ann.lee.al:europython.eu")
          "@admin:europython.eu"
          ⟨true, fun _ => none, fun _ => some [], fun _ => true, fun _ => true⟩)
        "email" "a@b.c" "pw" =
      (AuthOutcome.entitlementError "no_tickets_found", []) :=
  ⟨rfl,
   no_tickets_raises_error _ "a@b.c" "pw"
     ⟨"a@b.c", "Ann", "Lee", "al", false, false, []⟩ rfl rfl⟩

/-- Every update a single room iteration issues is an invite or a
join. -/
lemma reconcileRoom_updates_action (env : RoomEnv) (snapshot : List String)
    (admin user room_alias : String) :
    ∀ u ∈ (reconcileRoom env snapshot admin user room_alias).updates,
      u.action = MembershipAction.invite ∨ u.action = MembershipAction.join := by
  intro u hu
  unfold reconcileRoom at hu
  cases henv : env.aliasToId room_alias with
  | none => rw [henv] at hu; simp at hu
  | some rid =>
    rw [henv] at hu
    by_cases h1 : rid ∈ snapshot
    · simp [h1] at hu
    · cases h2 : env.inviteOk rid with
      | false => simp [h1, h2] at hu; subst hu; exact Or.inl rfl
      | true =>
        cases h3 : env.joinOk rid with
        | false =>
          simp [h1, h2, h3] at hu
          rcases hu with rfl | rfl
          · exact Or.inl rfl
          · exact Or.inr rfl
        | true =>
          simp [h1, h2, h3] at hu
          rcases hu with rfl | rfl
          · exact Or.inl rfl
          · exact Or.inr rfl

/-- Claim C5: during a reconciliation pass every issued membership
update is an INVITE or a JOIN (never leave, kick or ban), and the
membership state only grows: everything in the starting snapshot is
still present afterwards. -/
theorem reconciler_never_removes (env : RoomEnv) (member0 : List String)
    (admin user : String) (d : EpconData) :
    (∀ u ∈ (reconcilePass env member0 admin user d).updates,
      u.action = MembershipAction.invite ∨ u.action = MembershipAction.join) ∧
    (∀ rid ∈ member0, rid ∈ (reconcilePass env member0 admin user d).member1) := by
  constructor
  · intro u hu
    simp only [reconcilePass, List.mem_flatMap] at hu
    obtain ⟨a, _, hu⟩ := hu
    exact reconcileRoom_updates_action env member0 admin user a u hu
  · intro rid hr
    simp only [reconcilePass, List.mem_append]
    exact Or.inl hr

/-- Witness for C5: a pass that invites and joins a speaker into the
speakers room keeps the starting membership and issues only
invite/join updates. -/
theorem reconciler_never_removes_witness :
    (∀ u ∈ (reconcilePass
        ⟨true, (fun a => some ("!" ++ a)), (fun _ => some ["!x"]), (fun _ => true), (fun _ => true)⟩
        ["!x"] "@admin:europython.eu" "@u:europython.eu"
        ⟨"a@b.c", "Ann", "Lee", "al", false, true, []⟩).updates,
      u.action = MembershipAction.invite ∨ u.action = MembershipAction.join) ∧
    (∀ rid ∈ ["!x"], rid ∈ (reconcilePass
        ⟨true, (fun a => some ("!" ++ a)), (fun _ => some ["!x"]), (fun _ => true), (fun _ => true)⟩
        ["!x"] "@admin:europython.eu" "@u:europython.eu"
        ⟨"a@b.c", "Ann", "Lee", "al", false, true, []⟩).member1) :=
  reconciler_never_removes
    ⟨true, (fun a => some ("!" ++ a)), (fun _ => some ["!x"]), (fun _ => true), (fun _ => true)⟩
    ["!x"] "@admin:europython.eu" "@u:europython.eu"
    ⟨"a@b.c", "Ann", "Lee", "al", false, true, []⟩

/-- Projection: the results of a pass. -/
lemma reconcilePass_results (env : RoomEnv) (member0 : List String)
    (admin user : String) (d : EpconData) :
    (reconcilePass env member0 admin user d).results =
      (get_rooms_for_user d).map
        (fun a => (a, (reconcileRoom env member0 admin user a).result)) := rfl

/-- Projection: the updates of a pass. -/
lemma reconcilePass_updates (env : RoomEnv) (member0 : List String)
    (admin user : String) (d : EpconData) :
    (reconcilePass env member0 admin user d).updates =
      (get_rooms_for_user d).flatMap
        (fun a => (reconcileRoom env member0 admin user a).updates) := rfl

/-- Projection: the membership state after a pass. -/
lemma reconcilePass_member1 (env : RoomEnv) (member0 : List String)
    (admin user : String) (d : EpconData) :
    (reconcilePass env member0 admin user d).member1 =
      member0 ++ (get_rooms_for_user d).filterMap
        (fun a => (reconcileRoom env member0 admin user a).joinedId) := rfl

/-- A flat map over a list all of whose images are empty is empty. -/
lemma flatMap_eq_nil_of {α β : Type} (l : List α) (f : α → List β)
    (h : ∀ a ∈ l, f a = []) : l.flatMap f = [] := by
  induction l with
  | nil => rfl
  | cons a l ih =>
    simp [h a (List.mem_cons_self a l),
      ih fun b hb => h b (List.mem_cons_of_mem a hb)]

/-- After a room succeeded (or was already satisfied) in the first
pass, a second pass against the post-pass membership finds it already
satisfied and issues nothing for it. -/
lemma reconcileRoom_after_success (env : RoomEnv) (member0 : List String)
    (admin user : String) (d : EpconData) (a : String)
    (ha : a ∈ get_rooms_for_user d)
    (hok : (reconcileRoom env member0 admin user a).result = RoomResult.applied ∨
      (reconcileRoom env member0 admin user a).result = RoomResult.alreadyMember) :
    reconcileRoom env ((reconcilePass env member0 admin user d).member1)
      admin user a = ⟨RoomResult.alreadyMember, [], none⟩ := by
  have hm1 : ∀ rid : String, rid ∈ member0 ∨ (∃ b ∈ get_rooms_for_user d,
      (reconcileRoom env member0 admin user b).joinedId = some rid) →
      rid ∈ (reconcilePass env member0 admin user d).member1 := by
    intro rid h
    rw [reconcilePass_member1]
    rcases h with h | ⟨b, hb, hj⟩
    · exact List.mem_append.mpr (Or.inl h)
    · exact List.mem_append.mpr (Or.inr (List.mem_filterMap.mpr ⟨b, hb, hj⟩))
  cases henv : env.aliasToId a with
  | none =>
    unfold reconcileRoom at hok
    rw [henv] at hok
    simp at hok
  | some rid =>
    by_cases hmem : rid ∈ member0
    · have hr : rid ∈ (reconcilePass env member0 admin user d).member1 :=
        hm1 rid (Or.inl hmem)
      simp [reconcileRoom, henv, hr]
    · cases h2 : env.inviteOk rid with
      | false =>
        unfold reconcileRoom at hok
        rw [henv] at hok
        simp [hmem, h2] at hok
      | true =>
        cases h3 : env.joinOk rid with
        | false =>
          unfold reconcileRoom at hok
          rw [henv] at hok
          simp [hmem, h2, h3] at hok
        | true =>
          have hj : (reconcileRoom env member0 admin user a).joinedId = some rid := by
            unfold reconcileRoom
            rw [henv]
            simp [hmem, h2, h3]
          have hr : rid ∈ (reconcilePass env member0 admin user d).member1 :=
            hm1 rid (Or.inr ⟨a, ha, hj⟩)
          simp [reconcileRoom, henv, hr]

/-- Claim C4: a target room whose resolved id is already in the
snapshot is skipped with no update; and after a fully successful pass
(every room applied or already satisfied), an immediate second pass on
the resulting membership issues zero updates and reports every room as
already satisfied, not as a failure. -/
theorem reconcile_idempotent (env : RoomEnv) (member0 : List String)
    (admin user : String) (d : EpconData)
    (hok : ∀ p ∈ (reconcilePass env member0 admin user d).results,
      p.2 = RoomResult.applied ∨ p.2 = RoomResult.alreadyMember) :
    (∀ room_alias rid, env.aliasToId room_alias = some rid → rid ∈ member0 →
      reconcileRoom env member0 admin user room_alias =
        ⟨RoomResult.alreadyMember, [], none⟩) ∧
    (reconcilePass env ((reconcilePass env member0 admin user d).member1)
        admin user d).updates = [] ∧
    (∀ p ∈ (reconcilePass env ((reconcilePass env member0 admin user d).member1)
        admin user d).results, p.2 = RoomResult.alreadyMember) := by
  have key : ∀ a ∈ get_rooms_for_user d,
      reconcileRoom env ((reconcilePass env member0 admin user d).member1)
        admin user a = ⟨RoomResult.alreadyMember, [], none⟩ := by
    intro a ha
    apply reconcileRoom_after_success env member0 admin user d a ha
    have hmemres : (a, (reconcileRoom env member0 admin user a).result) ∈
        (reconcilePass env member0 admin user d).results := by
      rw [reconcilePass_results]
      exact List.mem_map.mpr ⟨a, ha, rfl⟩
    exact hok _ hmemres
  refine ⟨?_, ?_, ?_⟩
  · intro room_alias rid h1 h2
    simp [reconcileRoom, h1, h2]
  · rw [reconcilePass_updates]
    exact flatMap_eq_nil_of _ _ fun a ha => by rw [key a ha]
  · intro p hp
    rw [reconcilePass_results] at hp
    obtain ⟨b, hb, heq⟩ := List.mem_map.mp hp
    subst heq
    rw [key b hb]

/-- Witness for C4: a speaker profile, an environment where alias
lookup, invite and join all succeed, and an empty starting membership:
the first pass applies the speakers room, the second pass is a no-op. -/
theorem reconcile_idempotent_witness :
    (∀ p ∈ (reconcilePass
        ⟨true, (fun a => some ("!" ++ a)), (fun _ => some []), (fun _ => true), (fun _ => true)⟩
        [] "@admin:europython.eu" "@u:europython.eu"
        ⟨"a@b.c", "Ann", "Lee", "al", false, true, []⟩).results,
      p.2 = RoomResult.applied ∨ p.2 = RoomResult.alreadyMember) ∧
    ((∀ room_alias rid,
        (fun a => some ("!" ++ a)) room_alias = some rid → rid ∈ ([] : List String) →
        reconcileRoom
          ⟨true, (fun a => some ("!" ++ a)), (fun _ => some []), (fun _ => true), (fun _ => true)⟩
          [] "@admin:europython.eu" "@u:europython.eu" room_alias =
          ⟨RoomResult.alreadyMember, [], none⟩) ∧
      (reconcilePass
        ⟨true, (fun a => some ("!" ++ a)), (fun _ => some []), (fun _ => true), (fun _ => true)⟩
        ((reconcilePass
          ⟨true, (fun a => some ("!" ++ a)), (fun _ => some []), (fun _ => true), (fun _ => true)⟩
          [] "@admin:europython.eu" "@u:europython.eu"
          ⟨"a@b.c", "Ann", "Lee", "al", false, true, []⟩).member1)
        "@admin:europython.eu" "@u:europython.eu"
        ⟨"a@b.c", "Ann", "Lee", "al", false, true, []⟩).updates = [] ∧
      (∀ p ∈ (reconcilePass
        ⟨true, (fun a => some ("!" ++ a)), (fun _ => some []), (fun _ => true), (fun _ => true)⟩
        ((reconcilePass
          ⟨true, (fun a => some ("!" ++ a)), (fun _ => some []), (fun _ => true), (fun _ => true)⟩
          [] "@admin:europython.eu" "@u:europython.eu"
          ⟨"a@b.c", "Ann", "Lee", "al", false, true, []⟩).member1)
        "@admin:europython.eu" "@u:europython.eu"
        ⟨"a@b.c", "Ann", "Lee", "al", false, true, []⟩).results,
        p.2 = RoomResult.alreadyMember)) :=
  ⟨by decide,
   reconcile_idempotent
     ⟨true, (fun a => some ("!" ++ a)), (fun _ => some []), (fun _ => true), (fun _ => true)⟩
     [] "@admin:europython.eu" "@u:europython.eu"
     ⟨"a@b.c", "Ann", "Lee", "al", false, true, []⟩ (by decide)⟩

/-- First-match lookup in a character table (the association-list view
of the `unicodedata` mappings used below). -/
def tableGet (tbl : List (Char × Char)) (c : Char) : Option Char :=
  match tbl with
  | [] => none
  | p :: ps => if p.1 = c then some p.2 else tableGet ps c

/-- A hit of `tableGet` is an entry of the table. -/
lemma tableGet_eq_some_mem (tbl : List (Char × Char)) (c v : Char)
    (h : tableGet tbl c = some v) : (c, v) ∈ tbl := by
  induction tbl with
  | nil => simp [tableGet] at h
  | cons p ps ih =>
    rw [tableGet] at h
    by_cases hp : p.1 = c
    · rw [if_pos hp] at h
      cases h
      exact List.mem_cons.mpr (Or.inl (by rw [← hp]))
    · rw [if_neg hp] at h
      exact List.mem_cons_of_mem p (ih h)

/-- Modelled from the `str.lower()` builtin of the source (an external
runtime function): lowercase mapping for the character repertoire of
this embedding, ASCII uppercase handled arithmetically and the
uppercase Latin-1 accented letters by table. -/
def lowerTable : List (Char × Char) :=
  [('À','à'), ('Á','á'), ('Â','â'), ('Ã','ã'), ('Ä','ä'), ('Å','å'),
   ('Ç','ç'), ('È','è'), ('É','é'), ('Ê','ê'), ('Ë','ë'),
   ('Ì','ì'), ('Í','í'), ('Î','î'), ('Ï','ï'), ('Ñ','ñ'),
   ('Ò','ò'), ('Ó','ó'), ('Ô','ô'), ('Õ','õ'), ('Ö','ö'),
   ('Ù','ù'), ('Ú','ú'), ('Û','û'), ('Ü','ü'), ('Ý','ý')]

/-- One character of `str.lower()`. -/
def pyLower (c : Char) : Char :=
  if 65 ≤ c.toNat ∧ c.toNat ≤ 90 then Char.ofNat (c.toNat + 32)
  else (tableGet lowerTable c).getD c

/-- `str.lower()` over a whole string. -/
def pyLowerStr (s : String) : String := ⟨s.data.map pyLower⟩

/-- Modelled from `unicodedata.normalize("NFD", ·)` followed by
`.encode("ascii", "ignore")` (external stdlib calls in the source): the
NFD decomposition of each lowercase accented Latin letter of the
repertoire is its base letter plus a combining mark, and the mark is
then dropped by the ASCII encode. -/
def foldTable : List (Char × Char) :=
  [('à','a'), ('á','a'), ('â','a'), ('ã','a'), ('ä','a'), ('å','a'),
   ('ç','c'), ('è','e'), ('é','e'), ('ê','e'), ('ë','e'),
   ('ì','i'), ('í','i'), ('î','i'), ('ï','i'), ('ñ','n'),
   ('ò','o'), ('ó','o'), ('ô','o'), ('õ','o'), ('ö','o'),
   ('ù','u'), ('ú','u'), ('û','u'), ('ü','u'), ('ý','y'), ('ÿ','y')]

/-- Fold of a single character: ASCII characters pass through, accented
letters of the repertoire fold to their base letter, any other
character has no ASCII fold and is discarded. -/
def asciiFold (c : Char) : List Char :=
  if c.toNat < 128 then [c]
  else
    match tableGet foldTable c with
    | some b => [b]
    | none => []

/-- `strip_accents(text)`: NFD-normalize and keep only the ASCII
image. -/
def strip_accents (s : String) : String := ⟨s.data.flatMap asciiFold⟩

/-- `get_local_part(epcon_data)`: join the three name fields with
periods, lowercase, then strip accents. -/
def get_local_part (d : EpconData) : String :=
  strip_accents
    (pyLowerStr (d.first_name ++ "." ++ d.last_name ++ "." ++ d.username))

/-- Every character the fold of a lowered character produces is ASCII
and not an uppercase letter. -/
lemma asciiFold_pyLower_ascii (c1 c : Char)
    (h : c ∈ asciiFold (pyLower c1)) :
    c.toNat < 128 ∧ ¬(65 ≤ c.toNat ∧ c.toNat ≤ 90) := by
  unfold pyLower at h
  by_cases hU : 65 ≤ c1.toNat ∧ c1.toNat ≤ 90
  · rw [if_pos hU] at h
    have hv : (c1.toNat + 32).isValidChar := Or.inl (by omega)
    have hchar : (Char.ofNat (c1.toNat + 32)).toNat = c1.toNat + 32 := by
      simp only [Char.toNat, UInt32.toNat] at hv ⊢
      simp [Char.ofNat, hv, Char.ofNatAux, BitVec.toNat_ofNatLt]
    unfold asciiFold at h
    rw [if_pos (by omega)] at h
    simp at h
    subst h
    constructor <;> omega
  · rw [if_neg hU] at h
    cases hlk : tableGet lowerTable c1 with
    | some v =>
      rw [hlk] at h
      simp at h
      have hB : ∀ p ∈ lowerTable, ∀ c' ∈ asciiFold p.2,
          c'.toNat < 128 ∧ ¬(65 ≤ c'.toNat ∧ c'.toNat ≤ 90) := by decide
      exact hB (c1, v) (tableGet_eq_some_mem _ _ _ hlk) c h
    | none =>
      rw [hlk] at h
      simp only [Option.getD] at h
      unfold asciiFold at h
      by_cases hA : c1.toNat < 128
      · rw [if_pos hA] at h
        simp at h
        subst h
        exact ⟨hA, hU⟩
      · rw [if_neg hA] at h
        cases hfk : tableGet foldTable c1 with
        | some b =>
          rw [hfk] at h
          simp at h
          subst h
          have hD : ∀ p ∈ foldTable,
              p.2.toNat < 128 ∧ ¬(65 ≤ p.2.toNat ∧ p.2.toNat ≤ 90) := by decide
          exact hD (c1, c) (tableGet_eq_some_mem _ _ _ hfk)
        | none =>
          rw [hfk] at h
          simp at h

/-- A profile whose three name fields are all empty. -/
def dEmptyNames : EpconData := ⟨"a@b.c", "", "", "", false, false, []⟩

/-- Counterexample to C9 as stated: with all three name fields empty
the normalizer returns the two joining periods "..", not the empty
string. -/
theorem normalizer_empty_counterexample :
    dEmptyNames.first_name = "" ∧ dEmptyNames.last_name = "" ∧
    dEmptyNames.username = "" ∧
    get_local_part dEmptyNames = ".." ∧ (".." : String) ≠ "" := by
  refine ⟨rfl, rfl, rfl, rfl, by decide⟩

/-- Claim C9 (amended): the normalizer is total, and every character it
emits is ASCII and not an uppercase letter (lowercasing, folding
diacritics to base letters, and discarding characters with no ASCII
fold); when all three inputs are empty the output is "..", the two
joining periods, not the empty string. -/
theorem normalizer_ascii_lowercase :
    (∀ (d : EpconData), ∀ c ∈ (get_local_part d).data,
      c.toNat < 128 ∧ ¬(65 ≤ c.toNat ∧ c.toNat ≤ 90)) ∧
    get_local_part dEmptyNames = ".." := by
  constructor
  · intro d c hc
    simp only [get_local_part, strip_accents, pyLowerStr, List.mem_flatMap,
      List.mem_map] at hc
    obtain ⟨c0, hc0, hcf⟩ := hc
    obtain ⟨c1, _, rfl⟩ := hc0
    exact asciiFold_pyLower_ascii c1 c hcf
  · rfl

/-- Witness for C9 (amended): the spec's own example, `José Díaz` with
username `jd1`, folds to `jose.diaz.jd1`, and the first emitted
character is ASCII lowercase. -/
theorem normalizer_ascii_lowercase_witness :
    get_local_part ⟨"jd@b.c", "José", "Díaz", "jd1", false, false, []⟩ =
      "jose.diaz.jd1" ∧
    ('j' ∈ (get_local_part ⟨"jd@b.c", "José", "Díaz", "jd1", false, false, []⟩).data ∧
      'j'.toNat < 128 ∧ ¬(65 ≤ 'j'.toNat ∧ 'j'.toNat ≤ 90)) :=
  ⟨by decide,
   by decide,
   (normalizer_ascii_lowercase.1
     ⟨"jd@b.c", "José", "Díaz", "jd1", false, false, []⟩ 'j' (by decide))⟩
